import Mathlib

/-!
Shallow embedding of the sfu-ws SFU server (Go, `src/unnamed/part_001`).

The program keeps two pieces of process-wide shared state:

* `trackLocals : map[string]*webrtc.TrackLocalStaticRTP` — the Track
  Registry, mapping a track identifier to its forwarding sink;
* `peerConnections : []peerConnectionState` — the Session Registry, a
  list of sessions, each pairing a peer connection with a websocket.

We embed:

* the registry as an association list `Registry` with `mapInsert`
  (Go map assignment `m[k] = v`) and `mapErase` (Go `delete(m, k)`),
  and the operations `addTrack` / `removeTrack`;
* one session as a `Session` (connection state, senders, receivers,
  and a count of offers pushed over its websocket);
* the error-free execution of the per-session body of `attemptSync`
  (lines 137–195) as the pure function `syncSession`; the
  closed-session removal (lines 129–135) in `attemptSync`; the outer
  retry loop of `signalPeerConnections` (lines 202–215) as
  `signalLoopRun`, abstracted over an oracle giving each attempt's
  `tryAgain` outcome;
* the `OnTrack` relay loop (lines 321–349) as `relayWrites` /
  `relayTerminated` over a finite trace of read outcomes;
* the lifecycle of relay loops against the registry (publish at loop
  start, unpublish at loop termination) as the transition system
  `stepRelay`;
* the websocket signaling read loop (lines 356–393) as `readStep`.
-/

namespace SFU

/-- An inbound remote track, as consumed by `addTrack`
(`t.Codec().RTPCodecCapability`, `t.ID()`, `t.StreamID()`). -/
structure TrackRemote where
  codec : String
  id : String
  streamID : String
deriving DecidableEq, Repr

/-- A forwarding sink (`webrtc.TrackLocalStaticRTP`), keyed in the
Track Registry by its `id`. -/
structure TrackLocal where
  codec : String
  id : String
  streamID : String
deriving DecidableEq, Repr

/-- The Track Registry `trackLocals`: an association list from track
identifier to forwarding sink, keys unique. -/
abbrev Registry := List (String × TrackLocal)

/-- Go map assignment `m[k] = v`: overwrite the entry if the key is
present, otherwise append a new entry. -/
def mapInsert (k : String) (v : TrackLocal) (m : Registry) : Registry :=
  if m.any (fun p => p.1 = k) then
    m.map (fun p => if p.1 = k then (k, v) else p)
  else
    m ++ [(k, v)]

/-- Go `delete(m, k)`: remove every entry with key `k` (at most one,
since keys are unique); absent keys are a no-op. -/
def mapErase (k : String) (m : Registry) : Registry :=
  m.filter (fun p => p.1 ≠ k)

/-- The key set of the registry, in entry order. -/
def regKeys (m : Registry) : List String :=
  m.map (fun p => p.1)

/-- `webrtc.NewTrackLocalStaticRTP(t.Codec().RTPCodecCapability, t.ID(),
t.StreamID())`: the sink inherits codec, identifier and stream
identifier from the inbound track. -/
def newTrackLocal (t : TrackRemote) : TrackLocal :=
  ⟨t.codec, t.id, t.streamID⟩

/-- `addTrack` (lines 87–103): build the local sink and insert it into
`trackLocals` under the inbound track's identifier; returns the new
registry and the sink. (The triggered `signalPeerConnections` call is
modelled separately by `signalLoopRun`.) -/
def addTrack (t : TrackRemote) (m : Registry) : Registry × TrackLocal :=
  let trackLocal := newTrackLocal t
  (mapInsert t.id trackLocal m, trackLocal)

/-- `removeTrack` (lines 106–114): delete the sink's identifier from
`trackLocals`. (The triggered `signalPeerConnections` call is modelled
separately.) -/
def removeTrack (t : TrackLocal) (m : Registry) : Registry :=
  mapErase t.id m

/-! ## Relay-loop lifecycle (claim C5)

Each `OnTrack` callback runs `addTrack` when its relay loop starts and
(`defer`) `removeTrack` when the loop terminates.  We model the global
picture as a transition system over the registry together with the set
of identifiers of currently running relay loops. -/

/-- One lifecycle event of a relay loop: the loop for inbound track `t`
starts (running `addTrack t`), or it terminates (running the deferred
`removeTrack` on the sink built from `t`). -/
inductive RelayEvent where
  | start (t : TrackRemote)
  | stop (t : TrackRemote)
deriving DecidableEq, Repr

/-- Global state for the relay lifecycle: the Track Registry plus the
identifiers of the relay loops currently running. -/
structure RelayWorld where
  registry : Registry
  running : List String
deriving DecidableEq, Repr

/-- One lifecycle step: `start t` performs `addTrack t` and marks the
loop running; `stop t` performs the deferred `removeTrack` and marks
the loop stopped. -/
def stepRelay (w : RelayWorld) : RelayEvent → RelayWorld
  | .start t => ⟨(addTrack t w.registry).1, t.id :: w.running⟩
  | .stop t => ⟨removeTrack (newTrackLocal t) w.registry, w.running.erase t.id⟩

/-- Run a trace of lifecycle events. -/
def runRelay (w : RelayWorld) (es : List RelayEvent) : RelayWorld :=
  es.foldl stepRelay w

/-- A lifecycle event is admissible in state `w`: a loop only starts
with a track identifier no running loop holds (distinct inbound tracks
have distinct identifiers), and only a running loop terminates. -/
def okEvent (w : RelayWorld) : RelayEvent → Bool
  | .start t => !w.running.contains t.id
  | .stop t => w.running.contains t.id

/-- A trace is well formed from `w` when every event is admissible in
the state it is executed in. -/
def wfFrom (w : RelayWorld) : List RelayEvent → Bool
  | [] => true
  | e :: es => okEvent w e && wfFrom (stepRelay w e) es

/-- The registry/relay invariant: the registry's key set equals the set
of running relay-loop identifiers (as a permutation of duplicate-free
lists). -/
def relayInvariant (w : RelayWorld) : Prop :=
  (regKeys w.registry).Perm w.running ∧ w.running.Nodup

instance (w : RelayWorld) : Decidable (relayInvariant w) := by
  unfold relayInvariant; infer_instance

/-! ## Sessions and the synchronization pass

`peerConnectionState` pairs a `*webrtc.PeerConnection` with a
websocket.  For the reconciliation claims we record the parts of the
peer connection `attemptSync` reads and writes: the connection state,
the senders (`GetSenders()`, each with an optionally bound track —
`sender.Track()` may be `nil`), the receivers (`GetReceivers()`,
likewise), and how many `"offer"` events have been pushed over the
session's websocket. -/

/-- One registered session (`peerConnectionState`).  `closed` is
`ConnectionState() == webrtc.PeerConnectionStateClosed`; `senders` and
`receivers` list the bound track identifier of each sender/receiver
(`none` when `Track()` is `nil`); `offersSent` counts the `"offer"`
events written to the session's websocket. -/
structure Session where
  sid : Nat
  closed : Bool
  senders : List (Option String)
  receivers : List (Option String)
  offersSent : Nat
deriving DecidableEq, Repr

/-- The track identifiers bound to the session's senders (senders with
a `nil` track are skipped, lines 140–142). -/
def senderIDs (s : Session) : List String :=
  s.senders.filterMap id

/-- The track identifiers bound to the session's receivers (receivers
with a `nil` track are skipped, lines 156–158). -/
def receiverIDs (s : Session) : List String :=
  s.receivers.filterMap id

/-- The `existingSenders` map of `attemptSync` (lines 138–161): the
union of the session's sender-bound and receiver-bound track
identifiers — the tracks already accounted for. -/
def accountedFor (s : Session) : List String :=
  senderIDs s ++ receiverIDs s

/-- The sender adjustment of lines 139–152: for each sender, a `nil`
track is skipped; a bound track whose identifier is absent from the
registry key set is removed via the engine call `RemoveTrack`, which
detaches the track from the sender (the sender remains registered with
a `nil` track); a bound track present in the registry is left alone. -/
def syncSenders (reg : List String) (senders : List (Option String)) :
    List (Option String) :=
  senders.map (fun so =>
    match so with
    | none => none
    | some tid => if reg.contains tid then some tid else none)

/-- The identifiers on which lines 147–151 invoke the engine-level
`RemoveTrack`: sender-bound identifiers absent from the registry. -/
def removedSenders (reg : List String) (s : Session) : List String :=
  (senderIDs s).filter (fun tid => !reg.contains tid)

/-- The identifiers on which lines 164–170 invoke the engine-level
`AddTrack`: registry keys absent from `existingSenders`. -/
def addedTracks (reg : List String) (s : Session) : List String :=
  reg.filter (fun tid => !(accountedFor s).contains tid)

/-- The error-free per-session body of `attemptSync` (lines 137–195)
for a non-closed session: remove stale senders, add every registry
track not already accounted for as a new outgoing sender, then create
a fresh offer, set it as local description, and push it to the session
as an `"offer"` event (counted in `offersSent`), unconditionally.
`reg` is the key set of `trackLocals`. -/
def syncSession (reg : List String) (s : Session) : Session :=
  { s with
      senders := syncSenders reg s.senders ++ (addedTracks reg s).map some
      offersSent := s.offersSent + 1 }

/-- One full `attemptSync` pass (lines 128–199) over the session list,
on the error-free path of the engine calls: iterating in order, a
session whose connection state is closed is removed from the list and
the pass returns `tryAgain = true` immediately (restart from the
beginning, line 134); otherwise the session is processed by
`syncSession`.  Returns `(tryAgain, new session list)`. -/
def attemptSync (reg : List String) : List Session → Bool × List Session
  | [] => (false, [])
  | s :: rest =>
    if s.closed then
      (true, rest)
    else
      let r := attemptSync reg rest
      (r.1, syncSession reg s :: r.2)

/-! ## The retry loop of `signalPeerConnections` (lines 202–215)

The outer loop runs `attemptSync` while it reports `tryAgain`; when
`syncAttempt` reaches 25 it spawns one goroutine that sleeps 3 seconds
and calls `signalPeerConnections` again, and returns.  We abstract the
outcome of attempt number `i` (counting from 0) as `tryAgain i`. -/

/-- The bound on consecutive sync attempts (`syncAttempt == 25`). -/
def retryLimit : Nat := 25

/-- The deferred-retry cooldown in seconds (`time.Second * 3`). -/
def retryCooldownSeconds : Nat := 3

/-- The retry loop with `budget` attempts left before the cutoff:
returns the total number of `attemptSync` calls made and the number of
deferred retry goroutines scheduled (the cutoff branch at
`syncAttempt == 25` spawns exactly one; the break branch spawns none). -/
def signalLoopAux (tryAgain : Nat → Bool) (syncAttempt budget : Nat) :
    Nat × Nat :=
  match budget with
  | 0 => (syncAttempt, 1)
  | b + 1 =>
    if tryAgain syncAttempt then
      signalLoopAux tryAgain (syncAttempt + 1) b
    else
      (syncAttempt + 1, 0)

/-- The retry loop of `signalPeerConnections`, from `syncAttempt = 0`:
`(number of attemptSync calls, number of deferred retries scheduled)`. -/
def signalLoopRun (tryAgain : Nat → Bool) : Nat × Nat :=
  signalLoopAux tryAgain 0 retryLimit

/-! ## The RTP relay loop (lines 321–349)

The `OnTrack` callback reads packets in a loop: `t.Read` may fail
(return on error), `rtpPkt.Unmarshal` may fail (log and return), then
the header-extension fields are cleared and the packet is written with
`trackLocal.WriteRTP`, which may fail (return on error).  We model the
loop's input as a finite trace of read outcomes. -/

/-- An RTP packet as far as the relay is concerned: the extension flag,
the list of header extensions, and the rest of the packet (abstract). -/
structure RTPPacket where
  extension : Bool
  extensions : List Nat
  payload : List Nat
deriving DecidableEq, Repr

/-- Lines 342–343: `rtpPkt.Extension = false; rtpPkt.Extensions = nil`. -/
def clearExt (p : RTPPacket) : RTPPacket :=
  { p with extension := false, extensions := [] }

/-- One iteration's outcome at the transport: the read fails, or a
packet arrives; `unmarshalOk` is whether `rtpPkt.Unmarshal` succeeds on
its bytes and `writeOk` whether the subsequent `WriteRTP` succeeds. -/
inductive ReadEvent where
  | readErr
  | pkt (unmarshalOk : Bool) (p : RTPPacket) (writeOk : Bool)
deriving DecidableEq, Repr

/-- An iteration completes without error exactly when a packet arrives,
unmarshals, and is written successfully. -/
def stepOk : ReadEvent → Bool
  | .pkt true _ true => true
  | _ => false

/-- The packets successfully written to the forwarding sink by the
relay loop on the trace: processing stops at the first read, unmarshal
or write error. -/
def relayWrites : List ReadEvent → List RTPPacket
  | [] => []
  | .readErr :: _ => []
  | .pkt false _ _ :: _ => []
  | .pkt true _ false :: _ => []
  | .pkt true p true :: rest => clearExt p :: relayWrites rest

/-- Whether the relay loop terminates within the trace: it returns on
the first read, unmarshal or write error, and otherwise keeps looping. -/
def relayTerminated : List ReadEvent → Bool
  | [] => false
  | e :: rest => !stepOk e || relayTerminated rest

/-- The state after running the relay loop for sink `t` over the trace:
the deferred `removeTrack t` (which deletes `t.id` from the registry
and triggers a reconciliation pass) runs exactly when the loop has
terminated.  Returns `(registry, reconciliation triggered)`. -/
def relayFinal (t : TrackLocal) (m : Registry) (es : List ReadEvent) :
    Registry × Bool :=
  if relayTerminated es then (removeTrack t m, true) else (m, false)

/-! ## The signaling read loop (lines 356–393)

Each iteration reads a message; a read error or invalid JSON logs and
returns.  A parsed message is dispatched on its `event` field: for
`"candidate"` and `"answer"` a failure to parse `data` or a failing
engine call (`AddICECandidate` / `SetRemoteDescription`) logs and
returns; any other event matches no case of the `switch` and the loop
simply continues. -/

/-- One inbound item on the websocket: a transport read error, a
message that is not valid JSON, or a parsed message with its `event`
string, whether its `data` payload parses (`dataOk`), and whether the
engine call on it succeeds (`engineOk`). -/
inductive InEvent where
  | readErr
  | badJSON
  | msg (event : String) (dataOk : Bool) (engineOk : Bool)
deriving DecidableEq, Repr

/-- Outcome of one read-loop iteration: the loop returns (tearing the
session down) or continues with the next message. -/
inductive ReadOutcome where
  | stop
  | continue
deriving DecidableEq, Repr

/-- One iteration of the read loop on an inbound item. -/
def readStep : InEvent → ReadOutcome
  | .readErr => .stop
  | .badJSON => .stop
  | .msg e dataOk engineOk =>
    if e = "candidate" then
      if dataOk && engineOk then .continue else .stop
    else if e = "answer" then
      if dataOk && engineOk then .continue else .stop
    else
      .continue

/-- How many inbound items the read loop consumes before returning (it
consumes the whole trace if no item stops it). -/
def readLoopConsumed : List InEvent → Nat
  | [] => 0
  | e :: rest =>
    match readStep e with
    | .stop => 1
    | .continue => 1 + readLoopConsumed rest

end SFU

/-! ## Membership lemmas for the reconciliation step -/

namespace SFU

/-- Membership in `filterMap id` over optional identifiers. -/
theorem mem_filterMap_id {l : List (Option String)} {tid : String} :
    tid ∈ l.filterMap id ↔ some tid ∈ l := by
  simp [List.mem_filterMap]

/-- An identifier is a sender identifier exactly when some sender binds it. -/
theorem mem_senderIDs {s : Session} {tid : String} :
    tid ∈ senderIDs s ↔ some tid ∈ s.senders := mem_filterMap_id

/-- An identifier is a receiver identifier exactly when some receiver binds it. -/
theorem mem_receiverIDs {s : Session} {tid : String} :
    tid ∈ receiverIDs s ↔ some tid ∈ s.receivers := mem_filterMap_id

/-- `existingSenders` holds exactly the sender-bound and receiver-bound
identifiers. -/
theorem mem_accountedFor {s : Session} {tid : String} :
    tid ∈ accountedFor s ↔ tid ∈ senderIDs s ∨ tid ∈ receiverIDs s := by
  simp [accountedFor]

/-- The `AddTrack` calls are made exactly on registry keys not already
accounted for. -/
theorem mem_addedTracks {reg : List String} {s : Session} {tid : String} :
    tid ∈ addedTracks reg s ↔ tid ∈ reg ∧ tid ∉ accountedFor s := by
  simp [addedTracks, List.mem_filter]

/-- The `RemoveTrack` calls are made exactly on sender-bound identifiers
absent from the registry. -/
theorem mem_removedSenders {reg : List String} {s : Session} {tid : String} :
    tid ∈ removedSenders reg s ↔ tid ∈ senderIDs s ∧ tid ∉ reg := by
  simp [removedSenders, List.mem_filter]

/-- How the per-sender adjustment maps one sender slot. -/
theorem syncOne_eq_some {reg : List String} {so : Option String} {tid : String} :
    (match so with
      | none => none
      | some t => if reg.contains t then some t else none) = some tid ↔
      so = some tid ∧ tid ∈ reg := by
  cases so with
  | none => simp
  | some b =>
    by_cases hb : b ∈ reg
    · simp [hb]
      rintro rfl
      exact hb
    · simp [hb]
      rintro rfl
      exact hb

/-- Characterization of the sender set after `syncSession`: an
identifier is sender-bound afterwards exactly when it is a registry key
and was either already sender-bound or not accounted for at all. -/
theorem mem_senderIDs_sync {reg : List String} {s : Session} {tid : String} :
    tid ∈ senderIDs (syncSession reg s) ↔
      tid ∈ reg ∧ (tid ∈ senderIDs s ∨ tid ∉ accountedFor s) := by
  have h1 : tid ∈ (syncSenders reg s.senders).filterMap id ↔
      some tid ∈ s.senders ∧ tid ∈ reg := by
    simp only [List.mem_filterMap, syncSenders, List.mem_map, id_eq]
    constructor
    · rintro ⟨o, ⟨a, ha, rfl⟩, h⟩
      obtain ⟨rfl, hr⟩ := syncOne_eq_some.mp h
      exact ⟨ha, hr⟩
    · intro ⟨hmem, hr⟩
      exact ⟨some tid, ⟨some tid, hmem, syncOne_eq_some.mpr ⟨rfl, hr⟩⟩, rfl⟩
  have h2 : tid ∈ ((addedTracks reg s).map some).filterMap id ↔
      tid ∈ addedTracks reg s := by
    simp [List.filterMap_map]
  rw [senderIDs, syncSession]
  simp only [List.filterMap_append, List.mem_append]
  rw [h1, h2, mem_addedTracks, ← mem_senderIDs (s := s)]
  tauto

/-! ## Claim C9 — idempotent unpublish -/

/-- Claim C9: calling unpublish (`removeTrack`, i.e. `delete` on the
`trackLocals` map) with a track identifier that is not a key of the
Track Registry leaves the registry's key set unchanged; a Go map
`delete` never reports an error. -/
theorem removeTrack_absent_keys_unchanged (t : TrackLocal) (m : Registry)
    (h : t.id ∉ regKeys m) : regKeys (removeTrack t m) = regKeys m := by
  rw [removeTrack, mapErase, List.filter_eq_self.mpr]
  intro p hp
  simp only [ne_eq, decide_eq_true_eq]
  intro he
  exact h (List.mem_map.mpr ⟨p, hp, he⟩)

/-- Witness for C9: unpublishing `"x"` from a registry holding only
`"t"` leaves the key set `["t"]`. -/
theorem removeTrack_absent_witness :
    ("x" ∉ regKeys [("t", (⟨"vp8", "t", "s"⟩ : TrackLocal))]) ∧
      regKeys (removeTrack ⟨"vp8", "x", "s"⟩ [("t", ⟨"vp8", "t", "s"⟩)]) =
        regKeys [("t", (⟨"vp8", "t", "s"⟩ : TrackLocal))] :=
  ⟨by decide, removeTrack_absent_keys_unchanged ⟨"vp8", "x", "s"⟩ _ (by decide)⟩

/-! ## Claim C2 — no self-subscription -/

/-- Claim C2: if track `tid` was published by session `s` (so `tid` is
bound to one of the session's receivers), the reconciliation step never
adds `tid` as an outgoing sender back to `s`: `tid` is not among the
`AddTrack` calls, and if it was not already sender-bound it is not
sender-bound afterwards. -/
theorem no_self_subscription (reg : List String) (s : Session) (tid : String)
    (hpub : tid ∈ receiverIDs s) :
    tid ∉ addedTracks reg s ∧
      (tid ∉ senderIDs s → tid ∉ senderIDs (syncSession reg s)) := by
  constructor
  · intro hadd
    exact (mem_addedTracks.mp hadd).2 (mem_accountedFor.mpr (Or.inr hpub))
  · intro hns hsync
    rcases (mem_senderIDs_sync.mp hsync).2 with hin | hout
    · exact hns hin
    · exact hout (mem_accountedFor.mpr (Or.inr hpub))

/-- Witness for C2: a session receiving its own published track `"t"`
does not get `"t"` added back even though `"t"` is in the registry. -/
theorem no_self_subscription_witness :
    ("t" ∈ receiverIDs (⟨1, false, [], [some "t"], 0⟩ : Session)) ∧
      "t" ∉ addedTracks ["t", "u"] ⟨1, false, [], [some "t"], 0⟩ :=
  ⟨by decide,
    (no_self_subscription ["t", "u"] ⟨1, false, [], [some "t"], 0⟩ "t" (by decide)).1⟩

/-! ## Claim C1 — sender reconciliation -/

/-- Counterexample for C1 as stated: the final sender set is not the
registry minus the accounted-for set.  With registry `["t"]` and a
session already sending `"t"`, the sender `"t"` is kept (its track is
still published), yet `"t"` is accounted for, so the claimed set
equation excludes it. -/
theorem syncSession_ne_registry_minus_accounted :
    ¬ (∀ tid,
        tid ∈ senderIDs (syncSession ["t"] ⟨0, false, [some "t"], [], 0⟩) ↔
          tid ∈ ["t"] ∧ tid ∉ accountedFor ⟨0, false, [some "t"], [], 0⟩) :=
  fun h => absurd ((h "t").mp (by decide)) (by decide)

/-- Claim C1 (amended): for a session processed without error, every
sender whose bound identifier is absent from the registry is removed
via an engine-level `RemoveTrack` call; every registry key absent from
the accounted-for set is added via an engine-level `AddTrack` call; and
the resulting sender set equals the registry keys minus the identifiers
accounted for solely by receivers (kept senders stay). -/
theorem syncSession_sender_reconciliation (reg : List String) (s : Session) :
    (∀ tid ∈ senderIDs s, tid ∉ reg →
        tid ∈ removedSenders reg s ∧ tid ∉ senderIDs (syncSession reg s)) ∧
    (∀ tid ∈ reg, tid ∉ accountedFor s →
        tid ∈ addedTracks reg s ∧ tid ∈ senderIDs (syncSession reg s)) ∧
    (∀ tid, tid ∈ senderIDs (syncSession reg s) ↔
        tid ∈ reg ∧ (tid ∈ senderIDs s ∨ tid ∉ accountedFor s)) := by
  refine ⟨?_, ?_, fun tid => mem_senderIDs_sync⟩
  · intro tid hs hr
    refine ⟨mem_removedSenders.mpr ⟨hs, hr⟩, fun hsync => ?_⟩
    exact hr (mem_senderIDs_sync.mp hsync).1
  · intro tid hr ha
    exact ⟨mem_addedTracks.mpr ⟨hr, ha⟩, mem_senderIDs_sync.mpr ⟨hr, Or.inr ha⟩⟩

/-- Witness for C1 (amended): a stale sender `"u"` (absent from the
registry `["t"]`) is gone after the step. -/
theorem syncSession_sender_reconciliation_witness :
    ("u" ∈ senderIDs (⟨3, false, [some "u"], [], 0⟩ : Session)) ∧
      ("u" ∉ (["t"] : List String)) ∧
      "u" ∉ senderIDs (syncSession ["t"] ⟨3, false, [some "u"], [], 0⟩) :=
  ⟨by decide, by decide,
    ((syncSession_sender_reconciliation ["t"] ⟨3, false, [some "u"], [], 0⟩).1
      "u" (by decide) (by decide)).2⟩

/-! ## Claim C8 — header extensions cleared -/

/-- Claim C8: every packet the relay loop writes to the Published
Track's sink has its extension flag cleared and its extension list
empty — sender-specific extensions never reach subscribers. -/
theorem relayWrites_extensions_cleared (es : List ReadEvent) (p : RTPPacket)
    (hp : p ∈ relayWrites es) : p.extension = false ∧ p.extensions = [] := by
  induction es with
  | nil => simp [relayWrites] at hp
  | cons e es ih =>
    cases e with
    | readErr => simp [relayWrites] at hp
    | pkt uok q wok =>
      cases uok with
      | false => simp [relayWrites] at hp
      | true =>
        cases wok with
        | false => simp [relayWrites] at hp
        | true =>
          simp only [relayWrites, List.mem_cons] at hp
          rcases hp with h | h
          · subst h
            exact ⟨rfl, rfl⟩
          · exact ih h

/-- Witness for C8: a packet arriving with the extension flag set and
one extension is forwarded cleared. -/
theorem relayWrites_extensions_cleared_witness :
    ((⟨false, [], [1, 2]⟩ : RTPPacket) ∈
        relayWrites [ReadEvent.pkt true ⟨true, [5], [1, 2]⟩ true]) ∧
      (⟨false, [], [1, 2]⟩ : RTPPacket).extension = false ∧
      (⟨false, [], [1, 2]⟩ : RTPPacket).extensions = [] :=
  ⟨by decide,
    relayWrites_extensions_cleared [ReadEvent.pkt true ⟨true, [5], [1, 2]⟩ true]
      ⟨false, [], [1, 2]⟩ (by decide)⟩

/-! ## Claim C10 — unconditional renegotiation -/

/-- Claim C10: when a full pass completes without error (`tryAgain`
is false), every session was processed by the per-session step, and
that step pushes exactly one fresh `"offer"` event to the session,
unconditionally — the offer count rises by one whether or not the
session's senders changed. -/
theorem attemptSync_offer_every_session (reg : List String) (ss : List Session)
    (h : (attemptSync reg ss).1 = false) :
    (attemptSync reg ss).2 = ss.map (syncSession reg) ∧
    ∀ s ∈ ss, (syncSession reg s).sid = s.sid ∧
      (syncSession reg s).offersSent = s.offersSent + 1 := by
  refine ⟨?_, fun s _ => ⟨rfl, rfl⟩⟩
  induction ss with
  | nil => rfl
  | cons s rest ih =>
    rw [attemptSync] at h ⊢
    by_cases hc : s.closed = true
    · simp [hc] at h
    · simp only [Bool.not_eq_true] at hc
      simp only [hc, Bool.false_eq_true, if_false] at h ⊢
      rw [List.map_cons, ih h]

/-- Witness for C10: a session whose senders already match the registry
(no change made) still gets one more offer pushed. -/
theorem attemptSync_offer_witness :
    ((attemptSync ["t"] [⟨0, false, [some "t"], [], 4⟩]).1 = false) ∧
      (attemptSync ["t"] [⟨0, false, [some "t"], [], 4⟩]).2 =
        [⟨0, false, [some "t"], [], 4⟩].map (syncSession ["t"]) ∧
      (syncSession ["t"] ⟨0, false, [some "t"], [], 4⟩).offersSent = 5 :=
  ⟨by decide,
    (attemptSync_offer_every_session ["t"] [⟨0, false, [some "t"], [], 4⟩] (by decide)).1,
    ((attemptSync_offer_every_session ["t"] [⟨0, false, [some "t"], [], 4⟩]
        (by decide)).2 _ (by decide)).2⟩

end SFU

/-! ## Claim C3 — bounded retry with one deferred retry -/

namespace SFU

/-- The attempt counter never exceeds the starting attempt plus the
remaining budget. -/
theorem signalLoopAux_calls_le (f : Nat → Bool) (b k : Nat) :
    (signalLoopAux f k b).1 ≤ k + b := by
  induction b generalizing k with
  | zero => simp [signalLoopAux]
  | succ b ih =>
    cases hf : f k with
    | false => simp [signalLoopAux, hf]
    | true =>
      simp only [signalLoopAux, hf, if_true]
      exact le_trans (ih (k + 1)) (by omega)

/-- At most one deferred retry is ever scheduled. -/
theorem signalLoopAux_sched_le (f : Nat → Bool) (b k : Nat) :
    (signalLoopAux f k b).2 ≤ 1 := by
  induction b generalizing k with
  | zero => simp [signalLoopAux]
  | succ b ih =>
    cases hf : f k with
    | false => simp [signalLoopAux, hf]
    | true =>
      simp only [signalLoopAux, hf, if_true]
      exact ih (k + 1)

/-- The deferred retry is scheduled exactly when every attempt within
the budget reports retry. -/
theorem signalLoopAux_sched_iff (f : Nat → Bool) (b k : Nat) :
    (signalLoopAux f k b).2 = 1 ↔ ∀ i < b, f (k + i) = true := by
  induction b generalizing k with
  | zero => simp [signalLoopAux]
  | succ b ih =>
    cases hf : f k with
    | false =>
      simp only [signalLoopAux, hf, Bool.false_eq_true, if_false]
      constructor
      · intro h
        exact absurd h (by omega)
      · intro h
        have := h 0 (by omega)
        simp [hf] at this
    | true =>
      simp only [signalLoopAux, hf, if_true]
      rw [ih]
      constructor
      · intro h i hi
        cases i with
        | zero => simpa using hf
        | succ j =>
          have hj := h j (by omega)
          have e : k + 1 + j = k + (j + 1) := by omega
          rwa [e] at hj
      · intro h i hi
        have hj := h (i + 1) (by omega)
        have e : k + (i + 1) = k + 1 + i := by omega
        rwa [e] at hj

/-- Claim C3: one `signalPeerConnections` call makes at most 25
consecutive `attemptSync` calls; it schedules at most one deferred
retry, and schedules it exactly when all 25 attempts report retry (in
which case it returns immediately, leaving the retry to a separate
goroutine after the fixed 3-second cooldown). -/
theorem signalLoop_retry_policy (tryAgain : Nat → Bool) :
    (signalLoopRun tryAgain).1 ≤ retryLimit ∧
    (signalLoopRun tryAgain).2 ≤ 1 ∧
    ((signalLoopRun tryAgain).2 = 1 ↔ ∀ i < retryLimit, tryAgain i = true) ∧
    retryCooldownSeconds = 3 := by
  refine ⟨?_, signalLoopAux_sched_le tryAgain retryLimit 0, ?_, rfl⟩
  · simpa using signalLoopAux_calls_le tryAgain retryLimit 0
  · rw [signalLoopRun, signalLoopAux_sched_iff]
    constructor <;> intro h i hi <;> simpa using h i hi

/-- Witness for C3: when every attempt reports retry, the call stops
after exactly 25 attempts and schedules exactly one deferred retry. -/
theorem signalLoop_retry_policy_witness :
    (signalLoopRun (fun _ => true)).1 = 25 ∧
      (signalLoopRun (fun _ => true)).2 = 1 :=
  ⟨by decide, (signalLoop_retry_policy (fun _ => true)).2.2.1.mpr (fun _ _ => rfl)⟩

/-! ## Claim C4 — restart-safe removal of terminal sessions -/

/-- Claim C4: when the pass reaches a closed session, it removes
exactly the first closed session from the Session Registry and reports
retry so the iteration restarts from the beginning; the surviving list
is the processed prefix followed by the untouched suffix, so the
session-identifier list of the next pass is the old one with exactly
that one entry erased — no entry is skipped or duplicated. -/
theorem attemptSync_removes_first_closed (reg : List String) (ss : List Session)
    (h : ss.any (fun s => s.closed) = true) :
    (attemptSync reg ss).1 = true ∧
    (attemptSync reg ss).2 =
      (ss.take (ss.findIdx (fun s => s.closed))).map (syncSession reg) ++
        ss.drop (ss.findIdx (fun s => s.closed) + 1) ∧
    (attemptSync reg ss).2.map Session.sid =
      (ss.map Session.sid).eraseIdx (ss.findIdx (fun s => s.closed)) := by
  have key : (attemptSync reg ss).1 = true ∧
      (attemptSync reg ss).2 =
        (ss.take (ss.findIdx (fun s => s.closed))).map (syncSession reg) ++
          ss.drop (ss.findIdx (fun s => s.closed) + 1) := by
    induction ss with
    | nil => simp at h
    | cons s rest ih =>
      cases hc : s.closed with
      | true =>
        constructor <;> simp [attemptSync, hc, List.findIdx_cons]
      | false =>
        have hrest : rest.any (fun x => x.closed) = true := by
          simpa [hc] using h
        obtain ⟨ih1, ih2⟩ := ih hrest
        constructor
        · simp [attemptSync, hc, ih1]
        · simp [attemptSync, hc, List.findIdx_cons, ih2]
  refine ⟨key.1, key.2, ?_⟩
  rw [key.2, List.eraseIdx_eq_take_drop_succ, List.map_append, ← List.map_take,
    ← List.map_drop, List.map_map]
  congr 1

/-- Witness for C4: with sessions 0, 1, 2 where session 1 is closed,
the pass keeps sessions 0 and 2 exactly once each. -/
theorem attemptSync_removes_first_closed_witness :
    (([⟨0, false, [], [], 0⟩, ⟨1, true, [], [], 0⟩,
        ⟨2, false, [], [], 0⟩] : List Session).any (fun s => s.closed) = true) ∧
      (attemptSync []
          [⟨0, false, [], [], 0⟩, ⟨1, true, [], [], 0⟩,
            ⟨2, false, [], [], 0⟩]).2.map Session.sid =
        (([⟨0, false, [], [], 0⟩, ⟨1, true, [], [], 0⟩,
            ⟨2, false, [], [], 0⟩] : List Session).map Session.sid).eraseIdx
          (([⟨0, false, [], [], 0⟩, ⟨1, true, [], [], 0⟩,
              ⟨2, false, [], [], 0⟩] : List Session).findIdx (fun s => s.closed)) :=
  ⟨by decide,
    (attemptSync_removes_first_closed []
      [⟨0, false, [], [], 0⟩, ⟨1, true, [], [], 0⟩, ⟨2, false, [], [], 0⟩]
      (by decide)).2.2⟩

/-! ## Claim C5 — registry mirrors running relay loops -/

/-- Erasing a key from the registry filters exactly that key out of the
key list. -/
theorem regKeys_mapErase (k : String) (m : Registry) :
    regKeys (mapErase k m) = (regKeys m).filter (fun x => x != k) := by
  induction m with
  | nil => rfl
  | cons p m ih =>
    by_cases hp : p.1 = k
    · simp [mapErase, regKeys, List.filter_cons, hp] at ih ⊢
      exact ih
    · simp [mapErase, regKeys, List.filter_cons, hp] at ih ⊢
      exact ih

/-- Inserting a fresh key appends its entry. -/
theorem mapInsert_of_not_mem (k : String) (v : TrackLocal) (m : Registry)
    (h : k ∉ regKeys m) : mapInsert k v m = m ++ [(k, v)] := by
  rw [mapInsert, if_neg]
  intro hany
  obtain ⟨p, hp, he⟩ := List.any_eq_true.mp hany
  exact h (List.mem_map.mpr ⟨p, hp, of_decide_eq_true he⟩)

/-- One admissible lifecycle step preserves the registry/relay
invariant. -/
theorem stepRelay_invariant {w : RelayWorld} {e : RelayEvent}
    (hok : okEvent w e = true) (hI : relayInvariant w) :
    relayInvariant (stepRelay w e) := by
  obtain ⟨hperm, hnodup⟩ := hI
  cases e with
  | start t =>
    have hrun : t.id ∉ w.running := by simpa [okEvent] using hok
    have hkeys : t.id ∉ regKeys w.registry := fun hmem => hrun (hperm.mem_iff.mp hmem)
    constructor
    · show (regKeys (addTrack t w.registry).1).Perm (t.id :: w.running)
      rw [addTrack, mapInsert_of_not_mem _ _ _ hkeys, regKeys, List.map_append]
      exact (List.perm_append_singleton _ _).trans (hperm.cons t.id)
    · exact List.nodup_cons.mpr ⟨hrun, hnodup⟩
  | stop t =>
    have hrun : t.id ∈ w.running := by simpa [okEvent] using hok
    constructor
    · show (regKeys (removeTrack (newTrackLocal t) w.registry)).Perm
        (w.running.erase t.id)
      rw [removeTrack, regKeys_mapErase, List.Nodup.erase_eq_filter hnodup]
      exact hperm.filter _
    · exact hnodup.erase _

/-- Claim C5: along any admissible trace of relay-loop starts
(`addTrack` at loop start) and terminations (`removeTrack` at loop
end), at every quiescent point the Track Registry's key set equals the
set of identifiers of currently running relay loops.  The theorem
covers every quiescent point because `es` ranges over all well-formed
traces, in particular every prefix. -/
theorem relay_registry_consistency (w : RelayWorld) (es : List RelayEvent)
    (hw : wfFrom w es = true) (hI : relayInvariant w) :
    relayInvariant (runRelay w es) := by
  induction es generalizing w with
  | nil => simpa [runRelay] using hI
  | cons e es ih =>
    rw [wfFrom, Bool.and_eq_true] at hw
    exact ih (stepRelay w e) hw.2 (stepRelay_invariant hw.1 hI)

/-- Witness for C5: two loops start and the first terminates; the
invariant holds at the end. -/
theorem relay_registry_consistency_witness :
    (wfFrom ⟨[], []⟩
        [RelayEvent.start ⟨"vp8", "a", "s"⟩, RelayEvent.start ⟨"opus", "b", "s"⟩,
          RelayEvent.stop ⟨"vp8", "a", "s"⟩] = true) ∧
      relayInvariant (⟨[], []⟩ : RelayWorld) ∧
      relayInvariant (runRelay ⟨[], []⟩
        [RelayEvent.start ⟨"vp8", "a", "s"⟩, RelayEvent.start ⟨"opus", "b", "s"⟩,
          RelayEvent.stop ⟨"vp8", "a", "s"⟩]) :=
  ⟨by decide, by decide,
    relay_registry_consistency ⟨[], []⟩
      [RelayEvent.start ⟨"vp8", "a", "s"⟩, RelayEvent.start ⟨"opus", "b", "s"⟩,
        RelayEvent.stop ⟨"vp8", "a", "s"⟩] (by decide) (by decide)⟩

/-! ## Claim C6 — first error terminates the relay loop and unpublishes -/

/-- Claim C6: on a trace whose first error (read, unmarshal or write)
occurs after the error-free prefix `good`, the relay loop terminates
there — nothing at or after the error is written, with no retry — and
on termination the deferred unpublish runs: the sink's identifier is
removed from the Track Registry and a reconciliation pass is
triggered. -/
theorem relay_stops_at_first_error (t : TrackLocal) (m : Registry)
    (good : List ReadEvent) (bad : ReadEvent) (rest : List ReadEvent)
    (hg : ∀ e ∈ good, stepOk e = true) (hb : stepOk bad = false) :
    relayTerminated (good ++ bad :: rest) = true ∧
    relayWrites (good ++ bad :: rest) = relayWrites good ∧
    relayFinal t m (good ++ bad :: rest) = (removeTrack t m, true) := by
  have key : relayTerminated (good ++ bad :: rest) = true ∧
      relayWrites (good ++ bad :: rest) = relayWrites good := by
    induction good with
    | nil =>
      constructor
      · simp [relayTerminated, hb]
      · cases bad with
        | readErr => simp [relayWrites]
        | pkt uok p wok =>
          cases uok with
          | false => simp [relayWrites]
          | true =>
            cases wok with
            | false => simp [relayWrites]
            | true => simp [stepOk] at hb
    | cons e g ih =>
      have he : stepOk e = true := hg e (by simp)
      obtain ⟨ih1, ih2⟩ := ih (fun x hx => hg x (by simp [hx]))
      cases e with
      | readErr => simp [stepOk] at he
      | pkt uok p wok =>
        cases uok with
        | false => simp [stepOk] at he
        | true =>
          cases wok with
          | false => simp [stepOk] at he
          | true =>
            constructor
            · simp [relayTerminated, stepOk, ih1]
            · simp [relayWrites, ih2]
  refine ⟨key.1, key.2, ?_⟩
  rw [relayFinal, if_pos key.1]

/-- Witness for C6: one good packet, then a read error, then another
packet that is never written. -/
theorem relay_stops_at_first_error_witness :
    (∀ e ∈ [ReadEvent.pkt true ⟨true, [5], [9]⟩ true], stepOk e = true) ∧
      stepOk ReadEvent.readErr = false ∧
      relayWrites ([ReadEvent.pkt true ⟨true, [5], [9]⟩ true] ++
          ReadEvent.readErr :: [ReadEvent.pkt true ⟨true, [5], [9]⟩ true]) =
        relayWrites [ReadEvent.pkt true ⟨true, [5], [9]⟩ true] :=
  ⟨by decide, by decide,
    (relay_stops_at_first_error ⟨"vp8", "t", "s"⟩ [("t", ⟨"vp8", "t", "s"⟩)]
      [ReadEvent.pkt true ⟨true, [5], [9]⟩ true] ReadEvent.readErr
      [ReadEvent.pkt true ⟨true, [5], [9]⟩ true] (by decide) (by decide)).2.1⟩

/-! ## Claim C7 — malformed signaling input -/

/-- Counterexample for C7 as stated: a syntactically valid message
whose event is unknown (here `"chat"`, which is neither `"candidate"`
nor `"answer"`) matches no case of the `switch` and the read loop
continues — it is neither logged nor connection-fatal. -/
theorem readStep_unknown_event_continues :
    readStep (InEvent.msg "chat" true true) = ReadOutcome.continue ∧
      "chat" ≠ "candidate" ∧ "chat" ≠ "answer" := by
  decide

/-- Claim C7 (amended): a transport read error or a message that is not
valid JSON is connection-fatal (the read loop returns after logging);
for `"candidate"` and `"answer"` messages a data-parse or engine
failure is likewise fatal; a message with any other event is silently
ignored and the loop continues. -/
theorem readLoop_malformed_handling (ev : String) (d g : Bool)
    (hc : ev ≠ "candidate") (ha : ev ≠ "answer") :
    readStep InEvent.readErr = ReadOutcome.stop ∧
    readStep InEvent.badJSON = ReadOutcome.stop ∧
    readStep (InEvent.msg "candidate" d g) =
      (if d && g then ReadOutcome.continue else ReadOutcome.stop) ∧
    readStep (InEvent.msg "answer" d g) =
      (if d && g then ReadOutcome.continue else ReadOutcome.stop) ∧
    readStep (InEvent.msg ev d g) = ReadOutcome.continue := by
  refine ⟨rfl, rfl, ?_, ?_, ?_⟩
  · simp [readStep]
  · simp [readStep]
  · simp only [readStep]
    rw [if_neg hc, if_neg ha]

/-- Witness for C7 (amended): an unknown event with an unparsable
payload still does not stop the loop. -/
theorem readLoop_malformed_handling_witness :
    ("chat2" ≠ "candidate") ∧ ("chat2" ≠ "answer") ∧
      readStep (InEvent.msg "chat2" false true) = ReadOutcome.continue :=
  ⟨by decide, by decide,
    (readLoop_malformed_handling "chat2" false true (by decide) (by decide)).2.2.2.2⟩

end SFU
